import Mathlib

/-!
Verification of the aquifer-to-dcs USFM conversion scripts.

The definitions below are shallow embeddings of the Python sources
`convert_to_usfm.py` and `convert_to_usfm_with_ugnt.py`.  JSON
dictionaries become structures whose optional keys are `Option` fields
(or fields defaulting to `""` / `[]` where the Python uses
`dict.get(key, default)`), the mutable `usfm_lines` accumulator becomes
list concatenation in emission order, and writing the joined lines to a
file is modelled by returning the list of lines.
-/

set_option maxRecDepth 8000

namespace Aquifer

/-- Embeds the per-Greek-word dictionaries of `convert_to_usfm.py`
(`word_data['greekWords']` entries).  Each field mirrors a
`greek_word.get(key, '')` access, so an absent key is the empty string.
The Python key `lemma` is spelled `lemmaText` because `lemma` is a
reserved word in this development's language. -/
structure SourceToken where
  word : String := ""
  strongsNumber : String := ""
  lemmaText : String := ""
  grammarType : String := ""
  usageCode : String := ""

/-- Embeds the per-word dictionaries of a verse's `words` list in
`convert_to_usfm.py` (`word_data`): the English surface `word`, the
associated `greekWords`, and the `nextWordIsInGroup` flag, with the
Python defaults `''`, absent-or-empty list, and `False`. -/
structure AlignedWord where
  word : String := ""
  greekWords : List SourceToken := []
  nextWordIsInGroup : Bool := false

/-- Embeds Python's `str.split(sep)` for a single-character separator
at the character level: `splitOnChar sep s.data` is the list of the
(possibly empty) chunks of `s` between occurrences of `sep`. -/
def splitOnChar (sep : Char) : List Char → List (List Char)
  | [] => [[]]
  | c :: rest =>
    if c = sep then [] :: splitOnChar sep rest
    else
      match splitOnChar sep rest with
      | [] => [[c]]
      | h :: t => (c :: h) :: t

/-- Embeds `greek_word.get('usageCode', '').split('-')[-1] if '-' in
... else ...` from line 60 of `convert_to_usfm.py`: the part of the
usage code after its last hyphen when a hyphen is present, else the
whole code. -/
def usagePart (u : String) : String :=
  if u.data.contains '-' then ⟨(splitOnChar '-' u.data).getLastD u.data⟩ else u

/-- Embeds the `align_tag` f-string of `convert_to_usfm.py` lines
58-62: the `\zaln-s` open-alignment marker for one source token. -/
def alignTag (t : SourceToken) : String :=
  "\\zaln-s |x-strong=\"" ++ t.strongsNumber ++ "\" x-lemma=\"" ++ t.lemmaText ++
  "\" x-morph=\"Gr," ++ t.grammarType ++ ",,,,," ++ usagePart t.usageCode ++
  ",\" x-occurrence=\"1\" x-occurrences=\"1\" x-content=\"" ++ t.word ++ "\"\\*"

/-- Embeds the `\w ...\w*` f-string of `convert_to_usfm.py` line 67:
the wrapped English word with its occurrence attributes. -/
def wTag (w : String) : String :=
  "\\w " ++ w ++ "|x-occurrence=\"1\" x-occurrences=\"1\"\\w*"

/-- The close-alignment marker appended once per opened tag
(`convert_to_usfm.py` line 71). -/
def zalnEnd : String := "\\zaln-e\\*"

/-- Embeds `convert_to_usfm.py` lines 52-74: the markup pieces emitted
for the word at the cursor — either the alignment tags around the
wrapped word (when `greekWords` is present and non-empty) or the bare
surface text. -/
def emitWord (w : AlignedWord) : List String :=
  if w.greekWords.isEmpty then [w.word]
  else (w.greekWords.map alignTag) ++ [wTag w.word] ++
    List.replicate w.greekWords.length zalnEnd

/-- Embeds the inner `while` loop of `convert_to_usfm.py` lines 78-82:
starting after `prev` (the word whose `nextWordIsInGroup` flag was
consulted), it returns the `" " + next_word` pieces appended for the
continuation chain together with the words remaining after the chain
(the cursor position `next_idx` the loop leaves behind). -/
def chainSplit (prev : AlignedWord) : List AlignedWord → List String × List AlignedWord
  | [] => ([], [])
  | w :: rest =>
    if prev.nextWordIsInGroup then
      let p := chainSplit w rest
      ((" " ++ w.word) :: p.1, p.2)
    else ([], w :: rest)

theorem chainSplit_rem_length (prev : AlignedWord) (ws : List AlignedWord) :
    (chainSplit prev ws).2.length ≤ ws.length := by
  induction ws generalizing prev with
  | nil => simp [chainSplit]
  | cons w rest ih =>
    simp only [chainSplit]
    by_cases h : prev.nextWordIsInGroup <;> simp [h]
    exact Nat.le_succ_of_le (ih w)

/-- Embeds the outer `while i < len(greek_words)` loop of
`convert_to_usfm.py` lines 50-85, the cursor `i` becoming the list of
words not yet consumed: emit the current word's markup, then either
consume the continuation chain in one step or advance by one word. -/
def processWords : List AlignedWord → List String
  | [] => []
  | w :: rest =>
    emitWord w ++
      (if w.nextWordIsInGroup then
        (chainSplit w rest).1 ++ processWords (chainSplit w rest).2
      else processWords rest)
termination_by ws => ws.length
decreasing_by
  · exact Nat.lt_succ_of_le (chainSplit_rem_length w rest)
  · simp

/-- Embeds `process_aligned_verse` of `convert_to_usfm.py` lines 44-87:
the initial `result` entry is the `\v {verse_num} ` piece and the final
`"".join(result)` concatenates everything with no separator. -/
def process_aligned_verse (greek_words : List AlignedWord) (verse_num : Nat) : String :=
  "\\v " ++ toString verse_num ++ " " ++ String.join (processWords greek_words)

/-- Embeds a verse dictionary of the Greek JSON as consumed by
`convert_json_to_usfm`: the optional `words` key (line 119's
`'words' in greek_verse` check). -/
structure GreekVerse where
  words : Option (List AlignedWord) := none

/-- Embeds a chapter dictionary of the Greek JSON (`greek_chapter`),
holding its `verses` list. -/
structure GreekChapter where
  verses : List GreekVerse := []

/-- Embeds a verse dictionary of the English JSON, exposing its `text`
field used by the plain-text fallback (line 124). -/
structure EnglishVerse where
  text : String := ""

/-- Embeds a chapter dictionary of the English JSON: its `number`
field (matched against the 1-indexed Greek chapter number) and its
`verses`. -/
structure EnglishChapter where
  number : Nat := 0
  verses : List EnglishVerse := []

/-- Embeds `generate_usfm_header` of `convert_to_usfm.py` lines 10-20;
the formatted current date is passed in as `date`. -/
def generate_usfm_header (date : String) : List String :=
  ["\\id ACT EN_BSB en_English_ltr - Berean Study Bible " ++ date ++ " tc",
   "\\usfm 3.0",
   "\\h Acts",
   "\\toc1 Acts",
   "\\mt1 Acts"]

/-- Embeds `get_section_header` of `convert_to_usfm.py` lines 22-31:
the literal section-header lines registered for (chapter, verse), with
`[]` for unregistered pairs. -/
def get_section_header (chapter_num verse_num : Nat) : List String :=
  if chapter_num = 1 ∧ verse_num = 1 then
    ["\\s1 Prologue", "\\r (Luke 1:1–4)", "\\b", "\\m"]
  else if chapter_num = 1 ∧ verse_num = 6 then
    ["\\s1 The Ascension", "\\r (Mark 16:19–20; Luke 24:50–53)", "\\b", "\\m"]
  else []

/-- Embeds `get_footnote` of `convert_to_usfm.py` lines 33-42: the
literal footnote lines registered for (chapter, verse). -/
def get_footnote (chapter_num verse_num : Nat) : List String :=
  if chapter_num = 1 ∧ verse_num = 4 then
    ["\\f + \\fr 1:4 \\ft Or eating together\\f*"]
  else if chapter_num = 1 ∧ verse_num = 5 then
    ["\\f + \\fr 1:5 \\ft Or For John baptized in water, but in a few days you will be baptized in the Holy Spirit; cited in Acts 11:16\\f*"]
  else []

/-- Embeds the per-verse body of the `for verse_idx, greek_verse in
enumerate(...)` loop of `convert_json_to_usfm` (lines 111-133), the
running index `verse_idx` made explicit: section headers, then the
verse line (aligned markup when `words` is present, else the English
fallback when `verse_idx` is in range, else nothing), then footnotes,
then the `\b`/`\m` pair exactly when a section header or footnote was
emitted. -/
def versesLines (chapter_num : Nat) (evs : List EnglishVerse) :
    Nat → List GreekVerse → List String
  | _, [] => []
  | verse_idx, gv :: rest =>
    let verse_num := verse_idx + 1
    let section_headers := get_section_header chapter_num verse_num
    let body : List String :=
      match gv.words with
      | some ws => [process_aligned_verse ws verse_num]
      | none =>
        match evs.get? verse_idx with
        | some ev => ["\\v " ++ toString verse_num ++ " " ++ ev.text]
        | none => []
    let footnotes := get_footnote chapter_num verse_num
    section_headers ++ body ++ footnotes ++
      (if section_headers.isEmpty ∧ footnotes.isEmpty then [] else ["\\b", "\\m"]) ++
      versesLines chapter_num evs (verse_idx + 1) rest

/-- Embeds the body of the chapter loop of `convert_json_to_usfm`
(lines 101-133) for one Greek chapter at index `chapter_idx`: the
`\c` marker, then — only when `next((ch for ch in english ... if
ch['number'] == chapter_num), None)` finds a matching English chapter —
that chapter's verses; on `continue` (no match) nothing further. -/
def chapterLines (english : List EnglishChapter) (chapter_idx : Nat)
    (gc : GreekChapter) : List String :=
  ("\\c " ++ toString (chapter_idx + 1)) ::
    match english.find? (fun ch => ch.number == chapter_idx + 1) with
    | none => []
    | some ec => versesLines (chapter_idx + 1) ec.verses 0 gc.verses

/-- Embeds the `for chapter_idx, greek_chapter in enumerate(...)` loop
of `convert_json_to_usfm`, the running index made explicit. -/
def chaptersLines (english : List EnglishChapter) :
    Nat → List GreekChapter → List String
  | _, [] => []
  | chapter_idx, gc :: rest =>
    chapterLines english chapter_idx gc ++ chaptersLines english (chapter_idx + 1) rest

/-- Embeds `convert_json_to_usfm` of `convert_to_usfm.py` lines
89-140 as the list of USFM lines it joins with newlines and writes:
the header block followed by every chapter's lines. -/
def convert_json_to_usfm (date : String) (greek : List GreekChapter)
    (english : List EnglishChapter) : List String :=
  generate_usfm_header date ++ chaptersLines english 0 greek

/-- The per-character expansion of Python's `text.replace('\\',
'\\\\')`: a backslash becomes two backslashes, any other character is
kept. -/
def escChar (c : Char) : List Char :=
  if c = '\\' then ['\\', '\\'] else [c]

/-- Embeds `usfm_escape` of `convert_to_usfm_with_ugnt.py` lines 9-18,
i.e. Python's `text.replace('\\', '\\\\')`, at the character level
(the pattern is the single character `\`, so the replacement acts
characterwise). -/
def usfm_escape (text : String) : String :=
  ⟨text.data.flatMap escChar⟩

/-- Embeds Python's `str.strip()` (no arguments) at the character
level: whitespace is removed from both ends. -/
def pyStrip (s : String) : String :=
  ⟨((s.data.dropWhile Char.isWhitespace).reverse.dropWhile Char.isWhitespace).reverse⟩

/-- Embeds a row of the Greek-mapping CSV as read by
`csv.DictReader`: the three columns `SBLGNT:Greek`, `UGNT:Greek` and
`Greek`, each `row.get(col, '')`, so an absent column is `""`. -/
structure MapRow where
  sblgnt : String := ""
  ugnt : String := ""
  greek : String := ""

/-- Embeds Python dict assignment `mapping[k] = v` on an
insertion-ordered association list: an existing key's value is
replaced in place, a new key is appended. -/
def dictInsert (m : List (String × String)) (k v : String) : List (String × String) :=
  if m.any (fun p => p.1 == k) then
    m.map (fun p => if p.1 == k then (k, v) else p)
  else m ++ [(k, v)]

/-- Embeds dict membership/lookup: the value stored for `k`, if any. -/
def dictFind (m : List (String × String)) (k : String) : Option String :=
  (m.find? (fun p => p.1 == k)).map (fun p => p.2)

/-- Embeds the row loop of `load_greek_mapping`
(`convert_to_usfm_with_ugnt.py` lines 25-33): per row,
`row.get('SBLGNT:Greek', '') or row.get('Greek', '')` and likewise for
`UGNT:Greek` (Python `or` takes the second operand when the first is
the empty string), and the row is stored only when the resulting key is
non-empty. -/
def load_greek_mapping (rows : List MapRow) : List (String × String) :=
  rows.foldl
    (fun mapping row =>
      let sblgnt := if row.sblgnt = "" then row.greek else row.sblgnt
      let ugnt := if row.ugnt = "" then row.greek else row.ugnt
      if sblgnt = "" then mapping else dictInsert mapping sblgnt ugnt)
    []

/-- Embeds the token substitution `greek_mapping.get(word, word)` of
`process_aligned_json` line 76 (and the equivalent
`if token['text'] in greek_mapping: token['text'] = greek_mapping[...]`
pattern of lines 68-69 and 82-83): a key present in the map is
replaced by its value, any other token is returned unchanged. -/
def tokenSubst (mapping : List (String × String)) (t : String) : String :=
  (dictFind mapping t).getD t

/-- Embeds a token dictionary of the UGNT JSON (`token.get('text', '')`
accesses). -/
structure UToken where
  text : Option String := none

/-- Embeds an alignment dictionary: its `sourceNgram` token list
(`alignment.get('sourceNgram', [])`). -/
structure UAlignment where
  sourceNgram : List UToken := []

/-- Embeds a verse dictionary of the UGNT JSON with the optional keys
`generate_usfm` probes: `number`, `alignments`, `greek`, `tokens`,
`text`. -/
structure UVerse where
  number : Option Nat := none
  alignments : Option (List UAlignment) := none
  greek : Option String := none
  tokens : Option (List UToken) := none
  text : Option String := none

/-- Embeds a chapter dictionary of the UGNT JSON: `number` and
`verses`. -/
structure UChapter where
  number : Option Nat := none
  verses : List UVerse := []

/-- Renders the `chapter.get('number', '?')` / `verse.get('number',
'?')` expressions of `generate_usfm`: the number when present, the
literal `?` otherwise. -/
def numToStr : Option Nat → String
  | none => "?"
  | some n => toString n

/-- Embeds the `verse_text` accumulation of `generate_usfm`
(`convert_to_usfm_with_ugnt.py` lines 109-132): Method 1 uses the
alignments when the `alignments` key is present (appending each
n-gram's space-joined text plus `' '` when its stripped form is
non-empty), else Method 2 uses `greek`, else Method 3 the `tokens`,
else Method 4 the `text` field, else the empty string. -/
def verseText (v : UVerse) : String :=
  match v.alignments with
  | some als =>
    als.foldl
      (fun acc al =>
        let source_text := String.intercalate " "
          (al.sourceNgram.map (fun t => t.text.getD ""))
        if pyStrip source_text = "" then acc else acc ++ source_text ++ " ")
      ""
  | none =>
    match v.greek with
    | some g => g ++ " "
    | none =>
      match v.tokens with
      | some ts => ts.foldl (fun acc t => acc ++ t.text.getD "" ++ " ") ""
      | none =>
        match v.text with
        | some t => t ++ " "
        | none => ""

/-- Embeds `generate_usfm` lines 134-139 for one verse: when the
accumulated text strips to nothing, the warning is recorded and the
sentinel `[No Greek text found]` is substituted; the emitted line is
`\v {number} ` plus the escape of the stripped text.  The first
component is the emitted line, the second the recorded warnings. -/
def verseLineAndWarn (chapter_num : Option Nat) (v : UVerse) : String × List String :=
  let vt := verseText v
  let warns :=
    if pyStrip vt = "" then
      ["Warning: No Greek text found for chapter " ++ numToStr chapter_num ++
       ", verse " ++ numToStr v.number]
    else []
  let vt := if pyStrip vt = "" then "[No Greek text found]" else vt
  ("\\v " ++ numToStr v.number ++ " " ++ usfm_escape (pyStrip vt), warns)

/-- The fixed header block of `generate_usfm`
(`convert_to_usfm_with_ugnt.py` lines 93-101). -/
def genUsfmHeader : List String :=
  ["\\id ACT Unlocked Greek New Testament",
   "\\ide UTF-8",
   "\\h Acts",
   "\\toc1 The Acts of the Apostles",
   "\\toc2 Acts",
   "\\toc3 Act",
   "\\mt1 Acts"]

/-- Embeds one chapter of `generate_usfm`'s chapter loop: the
`\c {chapter.get('number', '?')}` marker followed by the verse lines,
paired with the warnings the verses record. -/
def uChapterLines (ch : UChapter) : List String × List String :=
  (("\\c " ++ numToStr ch.number) ::
     ch.verses.map (fun v => (verseLineAndWarn ch.number v).1),
   (ch.verses.map (fun v => (verseLineAndWarn ch.number v).2)).flatten)

/-- Embeds `generate_usfm` of `convert_to_usfm_with_ugnt.py` lines
91-141 as the list of lines it joins with newlines, paired with the
warnings printed along the way: the header block, then each chapter of
`data.get('chapters', [])` in order. -/
def genUsfm (chapters : List UChapter) : List String × List String :=
  (genUsfmHeader ++ (chapters.map (fun ch => (uChapterLines ch).1)).flatten,
   (chapters.map (fun ch => (uChapterLines ch).2)).flatten)

/-- The word sequence of the C1 scenario: `In` and `the` with no
source tokens, `beginning` aligned to one source token with strongs
number `G07461`. -/
def wordsC1 : List AlignedWord :=
  [{ word := "In" }, { word := "the" },
   { word := "beginning", greekWords := [{ word := "ἀρχῇ", strongsNumber := "G07461" }] }]

/-- C1 (counterexample): the claim says the compiled line begins
`\v 1 In the`, i.e. the two token-less words are separated by a space.
It does not: `"".join(result)` inserts no separator between words, so
the first eleven characters of the actual output are `\v 1 Inthe\`,
not `\v 1 In the`. -/
theorem c1_scenario_no_space :
    (process_aligned_verse wordsC1 1).data.take 11 ≠ "\\v 1 In the".data := by
  have h : process_aligned_verse wordsC1 1 =
      "\\v 1 Inthe\\zaln-s |x-strong=\"G07461\" x-lemma=\"\" x-morph=\"Gr,,,,,,,\" x-occurrence=\"1\" x-occurrences=\"1\" x-content=\"ἀρχῇ\"\\*\\w beginning|x-occurrence=\"1\" x-occurrences=\"1\"\\w*\\zaln-e\\*" := by
    simp [wordsC1, process_aligned_verse, processWords, chainSplit, emitWord, alignTag, wTag,
      usagePart, splitOnChar, zalnEnd]
    decide
  rw [h]
  decide

/-- C1 (amended): for the scenario's word sequence and verse number 1,
`process_aligned_verse` returns the single line `\v 1 ` followed by
`In` and `the` concatenated with no separator (`Inthe`), then the
open-alignment marker for `G07461`, the wrapped-word marker for
`beginning` with x-occurrence and x-occurrences `1`, and one
close-alignment marker.  The two token-less words do render as their
literal surface text with no alignment markers, but with no space
between them. -/
theorem c1_scenario_actual_output :
    process_aligned_verse wordsC1 1 =
      "\\v 1 Inthe\\zaln-s |x-strong=\"G07461\" x-lemma=\"\" x-morph=\"Gr,,,,,,,\" x-occurrence=\"1\" x-occurrences=\"1\" x-content=\"ἀρχῇ\"\\*\\w beginning|x-occurrence=\"1\" x-occurrences=\"1\"\\w*\\zaln-e\\*" := by
  simp [wordsC1, process_aligned_verse, processWords, chainSplit, emitWord, alignTag, wTag,
    usagePart, splitOnChar, zalnEnd]
  decide

/-- C7: for every source token, the open-alignment marker's x-morph
attribute equals the fixed prefix `Gr,` followed by the token's
grammar-type code, five empty comma-delimited positional slots, the
usage-code's suffix after the hyphen when the usage-code contains a
hyphen (else the whole usage-code), and a trailing comma; and the
x-occurrence / x-occurrences attributes of the open marker and of the
wrapped word are the constant `1`.  The two concrete `usagePart`
instances exhibit the hyphen and no-hyphen cases. -/
theorem c7_morph_occurrence_attrs (t : SourceToken) (w : String) :
    alignTag t =
      "\\zaln-s |x-strong=\"" ++ t.strongsNumber ++ "\" x-lemma=\"" ++ t.lemmaText ++
        "\" x-morph=\"" ++
        ("Gr," ++ t.grammarType ++ ",,,,," ++ usagePart t.usageCode ++ ",") ++
        "\" x-occurrence=\"1\" x-occurrences=\"1\" x-content=\"" ++ t.word ++ "\"\\*"
    ∧ usagePart "V-PAI-3S" = "3S" ∧ usagePart "ADV" = "ADV"
    ∧ wTag w = "\\w " ++ w ++ "|x-occurrence=\"1\" x-occurrences=\"1\"\\w*" := by
  refine ⟨?_, by decide, by decide, rfl⟩
  simp only [alignTag, String.append_assoc]
  rw [show ∀ x : String, "\" x-morph=\"" ++ ("Gr," ++ x) = "\" x-morph=\"Gr," ++ x from
    fun x => by rw [← String.append_assoc]; rfl]
  rw [show ∀ x : String,
      "," ++ ("\" x-occurrence=\"1\" x-occurrences=\"1\" x-content=\"" ++ x) =
        ",\" x-occurrence=\"1\" x-occurrences=\"1\" x-content=\"" ++ x from
    fun x => by rw [← String.append_assoc]; rfl]

/-- Recognizes an open-alignment marker piece: its first eight
characters are `\zaln-s ` (formalizing the claim's notion of an
open-alignment marker in the emitted piece list). -/
def isZalnSPiece (s : String) : Bool := s.data.take 8 == "\\zaln-s ".data

/-- Recognizes a wrapped-word marker piece: its first three characters
are `\w `. -/
def isWPiece (s : String) : Bool := s.data.take 3 == "\\w ".data

theorem isZalnSPiece_alignTag (t : SourceToken) : isZalnSPiece (alignTag t) = true := rfl

theorem isZalnSPiece_wTag (w : String) : isZalnSPiece (wTag w) = false := rfl

theorem isWPiece_alignTag (t : SourceToken) : isWPiece (alignTag t) = false := rfl

theorem isWPiece_wTag (w : String) : isWPiece (wTag w) = true := rfl

theorem alignTag_ne_zalnEnd (t : SourceToken) : (alignTag t == zalnEnd) = false := rfl

theorem wTag_ne_zalnEnd (w : String) : (wTag w == zalnEnd) = false := rfl

theorem countP_replicate_of_pos {α : Type} (p : α → Bool) (n : Nat) (a : α)
    (hp : p a = true) : (List.replicate n a).countP p = n := by
  induction n with
  | zero => simp
  | succ k ih => simp [List.replicate_succ, List.countP_cons, hp, ih]

theorem countP_replicate_of_neg {α : Type} (p : α → Bool) (n : Nat) (a : α)
    (hp : p a = false) : (List.replicate n a).countP p = 0 := by
  induction n with
  | zero => simp
  | succ k ih => simp [List.replicate_succ, List.countP_cons, hp, ih]

/-- C2: for every word with N >= 1 source tokens, `emitWord` (the
markup `process_aligned_verse` emits for that word) is exactly the N
open-alignment markers of its tokens, then the single wrapped-word
marker, then N close-alignment markers — so the emitted pieces contain
exactly N opens, exactly N closes and exactly one wrapped word, with
all opens before the wrapped word and all closes after it. -/
theorem c2_alignment_pairing (w : AlignedWord) (h : w.greekWords ≠ []) :
    emitWord w =
      w.greekWords.map alignTag ++ [wTag w.word] ++
        List.replicate w.greekWords.length zalnEnd
    ∧ (emitWord w).countP isZalnSPiece = w.greekWords.length
    ∧ (emitWord w).countP (fun p => p == zalnEnd) = w.greekWords.length
    ∧ (emitWord w).countP isWPiece = 1 := by
  have he : w.greekWords.isEmpty = false := by simp [List.isEmpty_eq_false, h]
  have h1 : emitWord w =
      w.greekWords.map alignTag ++ [wTag w.word] ++
        List.replicate w.greekWords.length zalnEnd := by
    simp [emitWord, he]
  refine ⟨h1, ?_, ?_, ?_⟩ <;> rw [h1] <;>
    simp only [List.countP_append, List.countP_map]
  · rw [countP_replicate_of_neg _ _ _ (by rfl)]
    simp [Function.comp, isZalnSPiece_alignTag, isZalnSPiece_wTag, List.countP_cons,
      List.countP_true]
  · rw [countP_replicate_of_pos _ _ _ (by rfl)]
    have hz : ((fun p => p == zalnEnd) ∘ alignTag) = fun t => false := by
      funext t; exact alignTag_ne_zalnEnd t
    simp [hz, List.countP_cons, wTag_ne_zalnEnd, List.countP_false]
  · rw [countP_replicate_of_neg _ _ _ (by rfl)]
    simp [Function.comp, isWPiece_alignTag, isWPiece_wTag, List.countP_cons,
      List.countP_false]

/-- Witness for C2 at a concrete one-token word. -/
theorem c2_alignment_pairing_witness :
    (emitWord { word := "beginning",
                greekWords := [{ word := "ἀρχῇ", strongsNumber := "G07461" }] }).countP
      isZalnSPiece = 1 :=
  (c2_alignment_pairing _ (List.cons_ne_nil _ _)).2.1

/-- The length of the continuation chain consumed after a word whose
group flag is set: the inner loop takes one word unconditionally and
then keeps taking words while the previously taken word's flag is set,
stopping at the end of the verse. -/
def chainLen (ws : List AlignedWord) : Nat :=
  min ws.length ((ws.takeWhile (fun w => w.nextWordIsInGroup)).length + 1)

theorem chainSplit_eq (prev : AlignedWord) (ws : List AlignedWord)
    (h : prev.nextWordIsInGroup = true) :
    chainSplit prev ws =
      ((ws.take (chainLen ws)).map (fun w => " " ++ w.word), ws.drop (chainLen ws)) := by
  induction ws generalizing prev with
  | nil => simp [chainSplit, chainLen]
  | cons w rest ih =>
    cases hw : w.nextWordIsInGroup with
    | false =>
      have hsplit : chainSplit prev (w :: rest) = ((" " ++ w.word) :: [], rest) := by
        cases rest <;> simp [chainSplit, h, hw]
      have hk : chainLen (w :: rest) = 1 := by
        simp [chainLen, List.takeWhile, hw]
      simp [hsplit, hk]
    | true =>
      have hk : chainLen (w :: rest) = chainLen rest + 1 := by
        simp only [chainLen, List.takeWhile, hw, List.length_cons]
        omega
      simp only [chainSplit, h, if_true, ih w hw, hk, List.take_succ_cons,
        List.drop_succ_cons, List.map_cons]

/-- C3: when the word at the cursor has the continuation flag set, the
whole chain (`chainLen` many following words: one unconditionally, then
while each preceding word's flag is set) is appended as plain literal
text, each word prefixed by exactly one space and with no alignment
markup regardless of its own source tokens; the cursor advances past
the chain in one step, and a chain that reaches the end of the word
sequence terminates the loop (the empty remainder yields no further
output). -/
theorem c3_continuation_chain (prev : AlignedWord) (ws : List AlignedWord)
    (h : prev.nextWordIsInGroup = true) :
    processWords (prev :: ws) =
      emitWord prev ++ (ws.take (chainLen ws)).map (fun w => " " ++ w.word) ++
        processWords (ws.drop (chainLen ws))
    ∧ processWords ([] : List AlignedWord) = [] := by
  constructor
  · simp only [processWords, h, if_true, chainSplit_eq prev ws h, List.append_assoc]
  · simp [processWords]

/-- Witness for C3: a two-word group `Abraham Lincoln`. -/
theorem c3_continuation_chain_witness :
    processWords [{ word := "Abraham", nextWordIsInGroup := true }, { word := "Lincoln" }] =
      ["Abraham", " Lincoln"] := by
  rw [(c3_continuation_chain { word := "Abraham", nextWordIsInGroup := true }
    [{ word := "Lincoln" }] rfl).1]
  simp [chainLen, emitWord, processWords]

/-- Recognizes a chapter-marker line: its first three characters are
`\c ` (formalizing the claim's notion of a chapter marker among the
assembled lines; every chapter line is `\c ` + number and no other
emitted line starts with `\c `). -/
def isChapMarker (s : String) : Bool := s.data.take 3 == "\\c ".data

/-- C4 (amended): when no English chapter whose `number` equals the
1-indexed Greek chapter number exists, `convert_json_to_usfm` skips
the whole chapter's verse processing — not just the plain-text
fallback path: the chapter contributes only its `\c` marker, and
aligned verses of that chapter are not compiled or emitted. -/
theorem c4_missing_english_chapter (english : List EnglishChapter)
    (chapter_idx : Nat) (gc : GreekChapter)
    (h : english.find? (fun ch => ch.number == chapter_idx + 1) = none) :
    chapterLines english chapter_idx gc = ["\\c " ++ toString (chapter_idx + 1)] := by
  simp only [chapterLines, h]

/-- The verse used in the C4 counterexample: it carries alignment
data (`words`), so by the claim it should still be compiled. -/
def wordsC4 : List AlignedWord :=
  [{ word := "Paul", greekWords := [{ word := "Παῦλος", strongsNumber := "G39720" }] }]

/-- C4 (counterexample): a Greek chapter whose single verse carries
alignment data, with an empty English collection (so no counterpart
chapter exists).  The claim says that verse is still compiled and
emitted; in fact the emitted lines are just the chapter marker, and
the compiled verse line is not among them. -/
theorem c4_whole_chapter_skipped :
    chapterLines [] 0 { verses := [{ words := some wordsC4 }] } = ["\\c 1"]
    ∧ process_aligned_verse wordsC4 1 ∉
        chapterLines [] 0 ({ verses := [{ words := some wordsC4 }] } : GreekChapter) := by
  have h : chapterLines [] 0 ({ verses := [{ words := some wordsC4 }] } : GreekChapter) =
      ["\\c 1"] := by
    simp only [chapterLines, List.find?]
    decide
  refine ⟨h, ?_⟩
  rw [h]
  intro hmem
  have hv : process_aligned_verse wordsC4 1 = "\\c 1" := by
    simpa using hmem
  have hfalse : isChapMarker (process_aligned_verse wordsC4 1) = false := rfl
  rw [hv] at hfalse
  exact absurd hfalse (by decide)

/-- Witness for C4 at a concrete chapter with an aligned verse and no
English chapters at all. -/
theorem c4_missing_english_chapter_witness :
    chapterLines [] 0 { verses := [{ words := some wordsC4 }] } = ["\\c 1"] := by
  rw [c4_missing_english_chapter [] 0 { verses := [{ words := some wordsC4 }] } rfl]
  decide

/-- C8: each verse assembled by `convert_json_to_usfm` contributes, in
this exact order: the section-header lines registered for (chapter,
verse) immediately before the verse body, the verse body (aligned
markup, or the English fallback line when in range, or nothing), the
footnote lines registered for (chapter, verse) immediately after the
body, and the `\b` `\m` paragraph-break pair exactly when a section
header or a footnote was emitted for that verse; then the remaining
verses follow. -/
theorem c8_verse_annotation_layout (chapter_num verse_idx : Nat) (gv : GreekVerse)
    (rest : List GreekVerse) (evs : List EnglishVerse) :
    versesLines chapter_num evs verse_idx (gv :: rest) =
      get_section_header chapter_num (verse_idx + 1) ++
      (match gv.words with
       | some ws => [process_aligned_verse ws (verse_idx + 1)]
       | none =>
         match evs.get? verse_idx with
         | some ev => ["\\v " ++ toString (verse_idx + 1) ++ " " ++ ev.text]
         | none => []) ++
      get_footnote chapter_num (verse_idx + 1) ++
      (if get_section_header chapter_num (verse_idx + 1) = [] ∧
          get_footnote chapter_num (verse_idx + 1) = [] then []
       else ["\\b", "\\m"]) ++
      versesLines chapter_num evs (verse_idx + 1) rest := by
  simp only [versesLines, List.isEmpty_iff]

theorem isChapMarker_pav (ws : List AlignedWord) (n : Nat) :
    isChapMarker (process_aligned_verse ws n) = false := rfl

theorem isChapMarker_vline (n : Nat) (t : String) :
    isChapMarker ("\\v " ++ toString n ++ " " ++ t) = false := rfl

theorem isChapMarker_cline (x : String) : isChapMarker ("\\c " ++ x) = true := rfl

theorem filter_section_header (c v : Nat) :
    (get_section_header c v).filter isChapMarker = [] := by
  unfold get_section_header
  split_ifs <;> rfl

theorem filter_footnote (c v : Nat) :
    (get_footnote c v).filter isChapMarker = [] := by
  unfold get_footnote
  split_ifs <;> rfl

theorem filter_versesLines (chapter_num : Nat) (evs : List EnglishVerse)
    (verse_idx : Nat) (gvs : List GreekVerse) :
    (versesLines chapter_num evs verse_idx gvs).filter isChapMarker = [] := by
  induction gvs generalizing verse_idx with
  | nil => simp [versesLines]
  | cons gv rest ih =>
    simp only [versesLines, List.filter_append, ih, List.append_nil,
      filter_section_header, filter_footnote, List.nil_append]
    have hbody : (match gv.words with
       | some ws => [process_aligned_verse ws (verse_idx + 1)]
       | none =>
         match evs.get? verse_idx with
         | some ev => ["\\v " ++ toString (verse_idx + 1) ++ " " ++ ev.text]
         | none => ([] : List String)).filter isChapMarker = [] := by
      cases gv.words with
      | some ws => simp [List.filter, isChapMarker_pav]
      | none =>
        cases evs.get? verse_idx with
        | some ev => simp [List.filter, isChapMarker_vline]
        | none => rfl
    rw [hbody]
    split_ifs <;> rfl

theorem filter_chapterLines (english : List EnglishChapter) (chapter_idx : Nat)
    (gc : GreekChapter) :
    (chapterLines english chapter_idx gc).filter isChapMarker =
      ["\\c " ++ toString (chapter_idx + 1)] := by
  simp only [chapterLines]
  cases english.find? (fun ch => ch.number == chapter_idx + 1) with
  | none => simp [List.filter, isChapMarker_cline]
  | some ec => simp [List.filter, isChapMarker_cline, filter_versesLines]

theorem filter_chaptersLines (english : List EnglishChapter) (chapter_idx : Nat)
    (greek : List GreekChapter) :
    (chaptersLines english chapter_idx greek).filter isChapMarker =
      (List.range greek.length).map (fun i => "\\c " ++ toString (chapter_idx + i + 1)) := by
  induction greek generalizing chapter_idx with
  | nil => simp [chaptersLines]
  | cons gc rest ih =>
    simp only [chaptersLines, List.filter_append, filter_chapterLines, ih,
      List.length_cons, List.range_succ_eq_map, List.map_cons, List.map_map,
      List.singleton_append]
    rw [List.cons.injEq]
    refine ⟨congrArg (fun n => "\\c " ++ toString n) (by omega), ?_⟩
    apply List.map_congr_left
    intro i _
    simp only [Function.comp]
    exact congrArg (fun n => "\\c " ++ toString n) (by omega)

theorem filter_usfm_header (date : String) :
    (generate_usfm_header date).filter isChapMarker = [] := by
  apply List.filter_eq_nil_iff.mpr
  intro a ha
  simp only [generate_usfm_header, List.mem_cons, List.mem_singleton,
    List.not_mem_nil, or_false] at ha
  rcases ha with h | h | h | h | h <;> subst h
  · rw [show isChapMarker
        ("\\id ACT EN_BSB en_English_ltr - Berean Study Bible " ++ date ++ " tc") = false
      from rfl]
    simp
  all_goals decide

theorem filter_genUsfmHeader : genUsfmHeader.filter isChapMarker = [] := by rfl

theorem isChapMarker_uverse (cnum : Option Nat) (v : UVerse) :
    isChapMarker (verseLineAndWarn cnum v).1 = false := rfl

theorem filter_uChapterLines (ch : UChapter) :
    (uChapterLines ch).1.filter isChapMarker = ["\\c " ++ numToStr ch.number] := by
  simp only [uChapterLines, List.filter_cons, isChapMarker_cline, if_true]
  congr 1
  apply List.filter_eq_nil_iff.mpr
  intro a ha
  rcases List.mem_map.mp ha with ⟨v, _, rfl⟩
  simp [isChapMarker_uverse]

theorem flatten_map_singleton {α β : Type} (f : α → β) (l : List α) :
    (l.map (fun x => [f x])).flatten = l.map f := by
  induction l with
  | nil => rfl
  | cons x xs ih => simp [ih]

/-- C9 (amended): in `convert_json_to_usfm`'s assembled document the
chapter markers are exactly `\c 1`, `\c 2`, ... in strictly ascending
positional order, one per Greek chapter (so their count equals the
Greek collection's chapter count), each number being the chapter's
index plus 1.  In `generate_usfm`'s document, however, each chapter
marker carries the chapter's own `number` field (rendered `?` when
absent) in data order — the number is not derived positionally. -/
theorem c9_chapter_markers (date : String) (greek : List GreekChapter)
    (english : List EnglishChapter) (udata : List UChapter) :
    (convert_json_to_usfm date greek english).filter isChapMarker =
      (List.range greek.length).map (fun i => "\\c " ++ toString (i + 1))
    ∧ (genUsfm udata).1.filter isChapMarker =
      udata.map (fun ch => "\\c " ++ numToStr ch.number) := by
  constructor
  · simp only [convert_json_to_usfm, List.filter_append, filter_usfm_header,
      List.nil_append, filter_chaptersLines]
    apply List.map_congr_left
    intro i _
    exact congrArg (fun n => "\\c " ++ toString n) (by omega)
  · simp only [genUsfm, List.filter_append, filter_genUsfmHeader, List.nil_append]
    rw [List.filter_flatten]
    simp only [List.map_map]
    rw [show (List.filter isChapMarker ∘ fun ch => (uChapterLines ch).1) =
        fun ch => ["\\c " ++ numToStr ch.number] from funext fun ch => filter_uChapterLines ch]
    exact flatten_map_singleton _ udata

/-- The data of the C9 counterexample: a single chapter whose `number`
field is 5. -/
def uDataC9 : List UChapter :=
  [{ number := some 5, verses := [{ number := some 1, greek := some "Παῦλος" }] }]

/-- C9 (counterexample): `generate_usfm` on a collection whose single
chapter has `number` 5 emits the chapter marker `\c 5`, not the
positionally derived `\c 1` the claim requires for the chapter at
index 0. -/
theorem c9_positional_cx :
    (genUsfm uDataC9).1.filter isChapMarker = ["\\c 5"]
    ∧ ("\\c 5" : String) ≠ "\\c 1" := by
  constructor
  · rfl
  · decide

/-- C6: an input row whose SBLGNT (primary-script) or UGNT
(target-script) field is empty has the row's Greek column substituted
for the empty field, so an incomplete row still contributes a mapping
when the resulting key is non-empty; and lookup is identity-defaulted:
a key not present in the map is returned unchanged, a present key
returns its stored value. -/
theorem c6_mapping_fallback_lookup (r : MapRow) (m : List (String × String)) (t : String) :
    (r.sblgnt = "" → r.greek ≠ "" →
      load_greek_mapping [r] = [(r.greek, if r.ugnt = "" then r.greek else r.ugnt)])
    ∧ (r.ugnt = "" → r.sblgnt ≠ "" →
      load_greek_mapping [r] = [(r.sblgnt, r.greek)])
    ∧ (dictFind m t = none → tokenSubst m t = t)
    ∧ (∀ v, dictFind m t = some v → tokenSubst m t = v) := by
  refine ⟨?_, ?_, ?_, ?_⟩
  · intro h1 h2
    simp [load_greek_mapping, dictInsert, h1, h2]
  · intro h1 h2
    simp [load_greek_mapping, dictInsert, h1, h2]
  · intro h
    simp [tokenSubst, h]
  · intro v h
    simp [tokenSubst, h]

/-- Witness for C6: the spec's scenario row `{Greek: λόγος, SBLGNT: "",
UGNT: λόγος}` contributes the identity mapping for `λόγος`. -/
theorem c6_mapping_fallback_lookup_witness :
    load_greek_mapping [{ sblgnt := "", ugnt := "λόγος", greek := "λόγος" }] =
      [("λόγος", "λόγος")] := by
  have h := (c6_mapping_fallback_lookup
    { sblgnt := "", ugnt := "λόγος", greek := "λόγος" } [] "x").1 rfl (by decide)
  simpa using h

/-- C5 (amended): `generate_usfm` emits the bracketed sentinel
`[No Greek text found]` as the verse body, and records the per-verse
warning, exactly when the text produced by the presence-based priority
chain (alignments if the key is present, else greek, else tokens, else
text) strips to empty — processing continues, the verse still gets a
line.  Because the chain selects on key presence, a representation
shadowed by an earlier present key is ignored, so this is not
equivalent to "no representation yields non-empty text". -/
theorem c5_sentinel_warning (cnum : Option Nat) (v : UVerse) :
    (pyStrip (verseText v) = "" →
      (verseLineAndWarn cnum v).1 =
        "\\v " ++ numToStr v.number ++ " [No Greek text found]"
      ∧ (verseLineAndWarn cnum v).2 =
        ["Warning: No Greek text found for chapter " ++ numToStr cnum ++
         ", verse " ++ numToStr v.number])
    ∧ ((verseLineAndWarn cnum v).2 ≠ [] ↔ pyStrip (verseText v) = "") := by
  constructor
  · intro h
    constructor
    · simp only [verseLineAndWarn, h, if_pos]
      rw [show usfm_escape (pyStrip "[No Greek text found]") = "[No Greek text found]"
        from rfl]
      rw [String.append_assoc]
      rw [show (" " ++ "[No Greek text found]" : String) = " [No Greek text found]" from rfl]
    · simp [verseLineAndWarn, h]
  · by_cases hc : pyStrip (verseText v) = "" <;> simp [verseLineAndWarn, hc]

/-- Witness for C5 at a verse with no representation at all. -/
theorem c5_sentinel_warning_witness :
    (verseLineAndWarn none { : UVerse }).1 = "\\v ? [No Greek text found]" := by
  have h := (c5_sentinel_warning none { : UVerse }).1 rfl
  rw [h.1]
  decide

/-- The verse of the C5 counterexample: the `alignments` key is
present but empty, and the `greek` field holds non-empty text. -/
def vC5 : UVerse := { alignments := some [], greek := some "λόγος" }

/-- C5 (counterexample): the claim's "if and only if no representation
yields non-empty text" fails: this verse's direct Greek text
representation is non-empty, yet the compiled body is the sentinel,
because the present-but-empty `alignments` key shadows the `greek`
field in the elif chain. -/
theorem c5_shadowed_representation_cx :
    (verseLineAndWarn none vC5).1 = "\\v ? [No Greek text found]"
    ∧ vC5.greek = some "λόγος" ∧ ("λόγος" : String) ≠ "" := by
  refine ⟨?_, rfl, by decide⟩
  rfl

theorem count_flatMap_escChar (l : List Char) :
    (l.flatMap escChar).count '\\' = 2 * l.count '\\' := by
  induction l with
  | nil => rfl
  | cons c cs ih =>
    rw [List.flatMap_cons, List.count_append, List.count_cons, ih]
    by_cases hc : c = '\\'
    · subst hc
      simp [escChar]
      omega
    · have hb : (c == '\\') = false := by simpa using hc
      simp [escChar, hc, List.count_cons, List.count_nil, hb]

theorem flatMap_escChar_of_no_backslash (l : List Char) (h : l.count '\\' = 0) :
    l.flatMap escChar = l := by
  induction l with
  | nil => rfl
  | cons c cs ih =>
    rw [List.count_cons] at h
    by_cases hc : c = '\\'
    · subst hc
      simp at h
    · have hb : (c == '\\') = false := by simpa using hc
      rw [hb] at h
      simp at h
      rw [List.flatMap_cons, ih h]
      simp [escChar, hc]

/-- C10: every verse line `generate_usfm` emits is the verse marker
and number followed by the escape of the stripped verse body (the
marker itself is outside the escape, and no other emitted line is
escaped); the escape doubles every backslash (the backslash count of
the output is twice the input's), and it is the identity exactly on
bodies containing no backslash. -/
theorem c10_escape_verse_line (cnum : Option Nat) (v : UVerse) (s : String) :
    (pyStrip (verseText v) ≠ "" →
      (verseLineAndWarn cnum v).1 =
        "\\v " ++ numToStr v.number ++ " " ++ usfm_escape (pyStrip (verseText v)))
    ∧ (usfm_escape s).data.count '\\' = 2 * s.data.count '\\'
    ∧ (usfm_escape s = s ↔ s.data.count '\\' = 0) := by
  refine ⟨?_, ?_, ?_, ?_⟩
  · intro h
    simp [verseLineAndWarn, h]
  · exact count_flatMap_escChar s.data
  · intro h
    have hdata : s.data.flatMap escChar = s.data := congrArg String.data h
    have hcount := count_flatMap_escChar s.data
    rw [hdata] at hcount
    omega
  · intro h
    exact String.ext (flatMap_escChar_of_no_backslash s.data h)

/-- Witness for C10 at a verse whose body is plain text with no
backslashes. -/
theorem c10_escape_verse_line_witness :
    (verseLineAndWarn none { greek := some "abc" : UVerse }).1 = "\\v ? abc" := by
  have h := (c10_escape_verse_line none { greek := some "abc" : UVerse } "x").1
    (by decide)
  rw [h]
  decide

end Aquifer
